import Mathlib

/-!
Verification development for the chess-clone backend's session coordination
core: the `GameService` session store (in-memory cache with write-through to
the relational store), the socket event handlers, the `GameTimeoutService`,
and the `MatchmakingService` queue.  The TypeScript services are embedded
shallowly: async methods become pure functions over an explicit system state,
the Postgres `games` table becomes an association list of rows, and the
external `chess.js` rules engine (out of scope per the design document) is a
parameter of type `RulesAdapter`.  Status, turn and result fields are kept as
strings, exactly as the JavaScript runtime compares them.
-/

namespace ChessClone

/-- Lookup in an association list keyed by strings, mirroring
`Map.prototype.get` (first matching key wins; keys are unique in practice). -/
def alookup {α : Type} : List (String × α) → String → Option α
  | [], _ => none
  | (k, v) :: rest, key => if k = key then some v else alookup rest key

/-- Update-or-append in an association list, mirroring `Map.prototype.set`
and an SQL `UPDATE ... WHERE id = $1` that is preceded by an `INSERT`. -/
def aset {α : Type} : List (String × α) → String → α → List (String × α)
  | [], key, v => [(key, v)]
  | (k, w) :: rest, key, v =>
    if k = key then (key, v) :: rest else (k, w) :: aset rest key v

/-- Removal from an association list, mirroring `Map.prototype.delete`
(keys being unique, dropping every matching entry is the same operation). -/
def aerase {α : Type} : List (String × α) → String → List (String × α)
  | [], _ => []
  | (k, v) :: rest, key =>
    if k = key then aerase rest key else (k, v) :: aerase rest key

theorem alookup_aset_self {α : Type} (l : List (String × α)) (k : String) (v : α) :
    alookup (aset l k v) k = some v := by
  induction l with
  | nil => simp [aset, alookup]
  | cons hd tl ih =>
    obtain ⟨a, b⟩ := hd
    by_cases h : a = k
    · simp [aset, h, alookup]
    · simp [aset, h, alookup, ih]

theorem alookup_aset_ne {α : Type} (l : List (String × α)) {k k' : String} (v : α)
    (h : k' ≠ k) : alookup (aset l k v) k' = alookup l k' := by
  induction l with
  | nil => simp [aset, alookup, Ne.symm h]
  | cons hd tl ih =>
    obtain ⟨a, b⟩ := hd
    by_cases hk : a = k
    · subst hk
      simp [aset, alookup, Ne.symm h]
    · simp [aset, hk, alookup, ih]

theorem alookup_aerase_self {α : Type} (l : List (String × α)) (k : String) :
    alookup (aerase l k) k = none := by
  induction l with
  | nil => simp [aerase, alookup]
  | cons hd tl ih =>
    obtain ⟨a, b⟩ := hd
    by_cases h : a = k
    · simpa [aerase, h] using ih
    · simpa [aerase, h, alookup] using ih

theorem alookup_aerase_ne {α : Type} (l : List (String × α)) {k k' : String}
    (h : k' ≠ k) : alookup (aerase l k) k' = alookup l k' := by
  induction l with
  | nil => simp [aerase, alookup]
  | cons hd tl ih =>
    obtain ⟨a, b⟩ := hd
    by_cases hk : a = k
    · subst hk
      simpa [aerase, alookup, Ne.symm h] using ih
    · simp [aerase, hk, alookup, ih]

theorem alookup_isSome_iff_mem_keys {α : Type} (l : List (String × α)) (k : String) :
    (alookup l k).isSome ↔ k ∈ l.map Prod.fst := by
  induction l with
  | nil => simp [alookup]
  | cons hd tl ih =>
    obtain ⟨a, b⟩ := hd
    by_cases h : a = k
    · subst h; simp [alookup]
    · simp [alookup, h, Ne.symm h, ih]

theorem mem_keys_aset {α : Type} (l : List (String × α)) (k k' : String) (v : α) :
    k' ∈ (aset l k v).map Prod.fst ↔ k' = k ∨ k' ∈ l.map Prod.fst := by
  induction l with
  | nil => simp [aset]
  | cons hd tl ih =>
    obtain ⟨a, b⟩ := hd
    by_cases hk : a = k
    · subst hk; simp [aset]
    · simp [aset, hk, ih]; tauto

theorem mem_keys_aerase {α : Type} (l : List (String × α)) (k k' : String) :
    k' ∈ (aerase l k).map Prod.fst ↔ k' ≠ k ∧ k' ∈ l.map Prod.fst := by
  induction l with
  | nil => simp [aerase]
  | cons hd tl ih =>
    obtain ⟨a, b⟩ := hd
    by_cases hk : a = k
    · subst hk; simp [aerase, ih]; tauto
    · by_cases hk' : k' = a
      · subst hk'; simp [aerase, hk, ih]
      · simp [aerase, hk, hk', ih]

/-- The cached session state held in `GameService.gameCache`
(`GameState` in `GameService.ts`): string-typed `turn`/`status`/`result`
exactly as the TypeScript runtime stores them; `result` and `pgn` are
absent (`none`) for sessions created in-process. -/
structure GameState where
  white_player_id : String
  black_player_id : String
  fen : String
  turn : String
  status : String
  result : Option String := none
  pgn : Option String := none
deriving DecidableEq, Repr

/-- A row of the `games` table as read through `GameModel` (`Game.ts`):
`status` defaults to `"active"` and `result` to `"ongoing"` in the schema. -/
structure DbGame where
  white_player_id : String
  black_player_id : String
  status : String
  result : String
  pgn : String
  fen : String
deriving DecidableEq, Repr

/-- The mutable state the `GameService` operations touch: the in-memory
`gameCache` map and the durable `games` table. -/
structure Sys where
  gameCache : List (String × GameState)
  db : List (String × DbGame)
deriving DecidableEq, Repr

/-- What `chess.move` plus the subsequent `chess.*` queries report for one
candidate move: the resulting FEN, the side-to-move token (`chess.turn()`,
`"w"` or `"b"`), the terminal-state flags and the updated PGN.  The rules
engine itself (chess.js) is an external collaborator, so `makeMove` is
parameterized over an adapter producing these. -/
structure MoveOutcome where
  newFen : String
  tAfter : String
  isGameOver : Bool
  isCheckmate : Bool
  isStalemate : Bool
  isThreefold : Bool
  isInsufficientMaterial : Bool
  pgn : String
deriving DecidableEq, Repr

/-- A rules engine: from a FEN and a move string, `none` when `chess.move`
rejects the move, otherwise the resulting `MoveOutcome`. -/
def RulesAdapter : Type := String → String → Option MoveOutcome

/-- The side-to-move token of a FEN string (its second space-separated
field), as `new Chess(fen).turn()` reads it. -/
def fenTurnTok (fen : String) : String :=
  (fen.splitOn " ").getD 1 ""

/-- The value `GameService.makeMove` resolves with:
`{ success, gameState?: { fen, turn, isGameOver, ... }, error? }`. -/
structure MoveResult where
  success : Bool
  fen : Option String := none
  turn : Option String := none
  isGameOver : Option Bool := none
  error : Option String := none
deriving DecidableEq, Repr

/-- `GameService.getGameState`: cache hit, else fall back to the database
and repopulate the cache (cache-fill-on-miss), else `none`. -/
def getGameState (sys : Sys) (gameId : String) : Sys × Option GameState :=
  match alookup sys.gameCache gameId with
  | some gs => (sys, some gs)
  | none =>
    match alookup sys.db gameId with
    | some g =>
      let gs : GameState :=
        { white_player_id := g.white_player_id
          black_player_id := g.black_player_id
          fen := g.fen
          turn := if fenTurnTok g.fen = "w" then "white" else "black"
          status := g.status
          result := some g.result
          pgn := some g.pgn }
      ({ sys with gameCache := aset sys.gameCache gameId gs }, some gs)
    | none => (sys, none)

/-- `GameModel.endGame`: `UPDATE games SET status = 'completed', result = $2
WHERE id = $3` (the FEN column is left untouched). -/
def dbEndGame : List (String × DbGame) → String → String → List (String × DbGame)
  | [], _, _ => []
  | (k, g) :: rest, gameId, res =>
    if k = gameId then
      (k, { g with status := "completed", result := res }) :: dbEndGame rest gameId res
    else (k, g) :: dbEndGame rest gameId res

/-- `GameModel.updateGameState`: `UPDATE games SET fen = $1, pgn = $2
WHERE id = $3`. -/
def dbUpdateGameState : List (String × DbGame) → String → String → String →
    List (String × DbGame)
  | [], _, _, _ => []
  | (k, g) :: rest, gameId, fen, pgn =>
    if k = gameId then
      (k, { g with fen := fen, pgn := pgn }) :: dbUpdateGameState rest gameId fen pgn
    else (k, g) :: dbUpdateGameState rest gameId fen pgn

theorem alookup_dbEndGame_self (db : List (String × DbGame)) (g res : String)
    (row : DbGame) (h : alookup db g = some row) :
    alookup (dbEndGame db g res) g =
      some { row with status := "completed", result := res } := by
  induction db with
  | nil => simp [alookup] at h
  | cons hd tl ih =>
    obtain ⟨a, b⟩ := hd
    by_cases hk : a = g
    · subst hk
      simp [alookup] at h
      subst h
      simp [dbEndGame, alookup]
    · simp [alookup, hk] at h
      simp [dbEndGame, hk, alookup, ih h]

theorem alookup_dbUpdateGameState_self (db : List (String × DbGame))
    (g fen pgn : String) (row : DbGame) (h : alookup db g = some row) :
    alookup (dbUpdateGameState db g fen pgn) g =
      some { row with fen := fen, pgn := pgn } := by
  induction db with
  | nil => simp [alookup] at h
  | cons hd tl ih =>
    obtain ⟨a, b⟩ := hd
    by_cases hk : a = g
    · subst hk
      simp [alookup] at h
      subst h
      simp [dbUpdateGameState, alookup]
    · simp [alookup, hk] at h
      simp [dbUpdateGameState, hk, alookup, ih h]

/-- `GameService.makeMove`.  `dbOk` stands for whether the awaited durable
write (`GameModel.endGame` / `GameModel.updateGameState`) succeeds; when it
throws, control reaches the `catch` block, which returns
`{ success: false, error: 'Internal server error' }` without having updated
the cache (the `gameCache.set` comes after the awaits in the source). -/
def makeMove (rules : RulesAdapter) (dbOk : Bool) (sys : Sys)
    (gameId playerId move : String) : Sys × MoveResult :=
  match getGameState sys gameId with
  | (sys1, none) =>
    (sys1, { success := false, error := some "Game not found or not active" })
  | (sys1, some gameState) =>
    if gameState.status ≠ "active" then
      (sys1, { success := false, error := some "Game not found or not active" })
    else
      let playerColor := if gameState.white_player_id = playerId then "white" else "black"
      if gameState.turn ≠ playerColor then
        (sys1, { success := false, error := some "Not your turn" })
      else
        match rules gameState.fen move with
        | none => (sys1, { success := false, error := some "Invalid move" })
        | some mo =>
          let newFen := mo.newFen
          let newTurn := if mo.tAfter = "w" then "white" else "black"
          if mo.isGameOver then
            let result :=
              if mo.isCheckmate then
                (if mo.tAfter = "w" then "black_wins" else "white_wins")
              else "draw"
            let updated : GameState :=
              { gameState with
                fen := newFen
                turn := newTurn
                status := "completed"
                pgn := some mo.pgn
                result := some result }
            if dbOk then
              let sys2 : Sys := { sys1 with db := dbEndGame sys1.db gameId result }
              let sys3 : Sys := { sys2 with gameCache := aset sys2.gameCache gameId updated }
              (sys3,
                { success := true
                  fen := some newFen
                  turn := some newTurn
                  isGameOver := some true })
            else
              (sys1, { success := false, error := some "Internal server error" })
          else
            let updated : GameState :=
              { gameState with
                fen := newFen
                turn := newTurn
                status := "active"
                pgn := some mo.pgn }
            if dbOk then
              let sys2 : Sys := { sys1 with db := dbUpdateGameState sys1.db gameId newFen mo.pgn }
              let sys3 : Sys := { sys2 with gameCache := aset sys2.gameCache gameId updated }
              (sys3,
                { success := true
                  fen := some newFen
                  turn := some newTurn
                  isGameOver := some false })
            else
              (sys1, { success := false, error := some "Internal server error" })

/-- `GameService.cleanupCompletedGame`: delete the cache entry only when the
cached status already reads `'completed'`. -/
def cleanupCompletedGame (sys : Sys) (gameId : String) : Sys :=
  match alookup sys.gameCache gameId with
  | some gs =>
    if gs.status = "completed" then
      { sys with gameCache := aerase sys.gameCache gameId }
    else sys
  | none => sys

/-- The session state a caller observes through `getGameState`, ignoring the
benign cache-fill side effect. -/
def sessionView (sys : Sys) (gameId : String) : Option GameState :=
  (getGameState sys gameId).2

theorem getGameState_db (sys : Sys) (gameId : String) :
    ((getGameState sys gameId).1).db = sys.db := by
  unfold getGameState
  cases alookup sys.gameCache gameId with
  | some gs => rfl
  | none => cases alookup sys.db gameId with
    | some g => rfl
    | none => rfl

theorem getGameState_stable (sys : Sys) (gameId : String) :
    getGameState (getGameState sys gameId).1 gameId =
      ((getGameState sys gameId).1, (getGameState sys gameId).2) := by
  unfold getGameState
  cases hc : alookup sys.gameCache gameId with
  | some gs => simp [hc]
  | none =>
    cases hd : alookup sys.db gameId with
    | some g => simp [hc, hd, alookup_aset_self]
    | none => simp [hc, hd]

theorem sessionView_getGameState (sys : Sys) (gameId : String) :
    sessionView (getGameState sys gameId).1 gameId = sessionView sys gameId := by
  unfold sessionView
  rw [getGameState_stable]

theorem cleanupCompletedGame_db (sys : Sys) (gameId : String) :
    (cleanupCompletedGame sys gameId).db = sys.db := by
  unfold cleanupCompletedGame
  cases alookup sys.gameCache gameId with
  | none => rfl
  | some gs => by_cases h : gs.status = "completed" <;> simp [h]

/-- One socket.io emission: either `io.to(room).emit(...)` (`toRoom = true`)
or `socket.emit(...)` to a single client.  Only the payload fields the
claims distinguish are carried. -/
structure Emit where
  target : String
  toRoom : Bool
  event : String
  result : Option String := none
  reason : Option String := none
  winner : Option String := none
  error : Option String := none
  fen : Option String := none
deriving DecidableEq, Repr

/-- `GameTimeoutService.timeoutChecks` reduced to the set of game ids with an
armed timer; `startGameTimeout` clears any existing timer first. -/
def timerStart (gameId : String) (timers : List String) : List String :=
  gameId :: timers.filter (fun t => decide (t ≠ gameId))

/-- `GameTimeoutService.clearGameTimeout`. -/
def timerClear (gameId : String) (timers : List String) : List String :=
  timers.filter (fun t => decide (t ≠ gameId))

/-- The `'make-move'` socket handler (`SocketService`, full variant): run
`GameService.makeMove`; on success broadcast `move-made` to the game room and
restart the timeout unless the game is over (then clear it); on failure emit
`move-error` to the submitting socket only. -/
def handleMakeMove (rules : RulesAdapter) (dbOk : Bool) (sys : Sys)
    (timers : List String) (gameId senderSocket senderUserId move : String) :
    Sys × List String × List Emit :=
  match makeMove rules dbOk sys gameId senderUserId move with
  | (sys1, res) =>
    if res.success then
      let ev : Emit :=
        { target := "game-" ++ gameId, toRoom := true, event := "move-made", fen := res.fen }
      if res.isGameOver = some false then
        (sys1, timerStart gameId timers, [ev])
      else
        (sys1, timerClear gameId timers, [ev])
    else
      (sys1, timers,
        [{ target := senderSocket, toRoom := false, event := "move-error", error := res.error }])

/-- The `'resign'` socket handler: look the game up in the database; if
found, clear the timer, finalize the row with the *other* side as winner and
broadcast a single `game-over` with reason `resignation`.  The in-memory
`gameCache` is not touched. -/
def handleResign (sys : Sys) (timers : List String) (gameId resignerId : String) :
    Sys × List String × List Emit :=
  match alookup sys.db gameId with
  | none => (sys, timers, [])
  | some game =>
    let winner := if game.white_player_id = resignerId then "Black" else "White"
    let resultStr := if winner = "White" then "white_wins" else "black_wins"
    ({ sys with db := dbEndGame sys.db gameId resultStr },
     timerClear gameId timers,
     [{ target := "game-" ++ gameId, toRoom := true, event := "game-over",
        result := some resultStr, winner := some winner, reason := some "resignation" }])

/-- The `'accept-draw'` socket handler: clear the timer, finalize the row as
a draw and broadcast `draw-accepted` followed by one `game-over` with reason
`agreement`.  (The Redis `game:{id}` hash mirror it also refreshes carries no
session-coordination state used elsewhere and is not modelled.) -/
def handleAcceptDraw (sys : Sys) (timers : List String) (gameId : String) :
    Sys × List String × List Emit :=
  ({ sys with db := dbEndGame sys.db gameId "draw" },
   timerClear gameId timers,
   [{ target := "game-" ++ gameId, toRoom := true, event := "draw-accepted" },
    { target := "game-" ++ gameId, toRoom := true, event := "game-over",
      result := some "draw", reason := some "agreement" }])

/-- `GameTimeoutService.handleGameTimeout`: re-check the live status through
`getGameState`; when the session is absent or no longer `'active'`, only the
timer entry is dropped; otherwise finalize the row as a draw, attempt
`cleanupCompletedGame`, broadcast one `game-over` with reason `timeout`, and
drop the timer. -/
def handleGameTimeout (sys : Sys) (timers : List String) (gameId : String) :
    Sys × List String × List Emit :=
  match getGameState sys gameId with
  | (sys1, none) => (sys1, timerClear gameId timers, [])
  | (sys1, some gs) =>
    if gs.status ≠ "active" then
      (sys1, timerClear gameId timers, [])
    else
      let sys2 : Sys := { sys1 with db := dbEndGame sys1.db gameId "draw" }
      let sys3 := cleanupCompletedGame sys2 gameId
      (sys3, timerClear gameId timers,
       [{ target := "game-" ++ gameId, toRoom := true, event := "game-over",
          result := some "draw", reason := some "timeout" }])

/-- Number of emissions of a given event name in a handler's output. -/
def countEvent (evs : List Emit) (name : String) : Nat :=
  (evs.filter (fun e => decide (e.event = name))).length

/-- Concrete fixture: an active cached session `g1`, white (`alice`) to
move, with its matching database row. -/
def gsDemo : GameState :=
  { white_player_id := "alice"
    black_player_id := "bob"
    fen := "F0 w"
    turn := "white"
    status := "active" }

/-- Concrete fixture: the `games` row backing `gsDemo`. -/
def rowDemo : DbGame :=
  { white_player_id := "alice"
    black_player_id := "bob"
    status := "active"
    result := "ongoing"
    pgn := ""
    fen := "F0 w" }

/-- Concrete fixture: cache and database both holding session `g1`. -/
def sysDemo : Sys := { gameCache := [("g1", gsDemo)], db := [("g1", rowDemo)] }

/-- Concrete fixture: black-to-move variant of `gsDemo`. -/
def gsDemoB : GameState :=
  { white_player_id := "alice"
    black_player_id := "bob"
    fen := "F0 b"
    turn := "black"
    status := "active" }

/-- Concrete fixture: system whose cached session `g1` has black to move. -/
def sysDemoB : Sys :=
  { gameCache := [("g1", gsDemoB)]
    db := [("g1", { rowDemo with fen := "F0 b" })] }

/-- Concrete rules-adapter outcome for a quiet opening move. -/
def moQuiet : MoveOutcome :=
  { newFen := "F1 b", tAfter := "b", isGameOver := false, isCheckmate := false,
    isStalemate := false, isThreefold := false, isInsufficientMaterial := false,
    pgn := "1. e4" }

/-- Concrete rules-adapter outcome for a checkmating move by white. -/
def moMate : MoveOutcome :=
  { newFen := "F2 b", tAfter := "b", isGameOver := true, isCheckmate := true,
    isStalemate := false, isThreefold := false, isInsufficientMaterial := false,
    pgn := "1. Qh5#" }

/-- Concrete rules-adapter outcome for a quiet reply by black. -/
def moQuietB : MoveOutcome :=
  { newFen := "F1 w", tAfter := "w", isGameOver := false, isCheckmate := false,
    isStalemate := false, isThreefold := false, isInsufficientMaterial := false,
    pgn := "1... e5" }

/-- A small concrete rules adapter covering the fixture positions. -/
def rulesDemo : RulesAdapter := fun fen mv =>
  if fen = "F0 w" ∧ mv = "e4" then some moQuiet
  else if fen = "F0 w" ∧ mv = "qh5" then some moMate
  else if fen = "F0 b" ∧ mv = "e5" then some moQuietB
  else none

/-- A waiting player in the matchmaking queue (in-memory variant of
`MatchmakingService`): `joinedAt` is the enqueue timestamp in milliseconds. -/
structure WaitingPlayer where
  id : String
  username : String
  rating : Int
  socketId : String
  joinedAt : Nat
deriving DecidableEq, Repr

/-- The in-memory `MatchmakingService` state: the `waitingPlayers` map keyed
by player id and the `queue` array. -/
structure MMState where
  waitingPlayers : List (String × WaitingPlayer)
  queue : List WaitingPlayer
deriving DecidableEq, Repr

/-- The empty matchmaking state. -/
def mmEmpty : MMState := { waitingPlayers := [], queue := [] }

/-- Stable insertion of a player into a queue kept ascending by `joinedAt`:
the new element goes before the first strictly later entry, so equal
timestamps keep their original relative order — the behaviour of the
stable `Array.prototype.sort` with comparator `a.joinedAt - b.joinedAt`. -/
def insJoin (p : WaitingPlayer) : List WaitingPlayer → List WaitingPlayer
  | [] => [p]
  | q :: qs => if q.joinedAt < p.joinedAt then q :: insJoin p qs else p :: q :: qs

/-- Stable sort by `joinedAt` (insertion sort), the semantics of
`this.queue.sort((a, b) => a.joinedAt.getTime() - b.joinedAt.getTime())`. -/
def sortByTime : List WaitingPlayer → List WaitingPlayer
  | [] => []
  | p :: ps => insJoin p (sortByTime ps)

/-- `MatchmakingService.joinQueue` (in-memory variant): silently return when
the identity is already keyed in `waitingPlayers`; otherwise record the
player by id, push onto the queue and re-sort it by join time. -/
def joinQueue (st : MMState) (p : WaitingPlayer) : MMState :=
  if (alookup st.waitingPlayers p.id).isSome then st
  else
    { waitingPlayers := aset st.waitingPlayers p.id p
      queue := sortByTime (st.queue ++ [p]) }

/-- Drop every queue entry with the given id — the source's
`this.queue.filter(p => p.id !== playerId)`. -/
def removeFromQueue : List WaitingPlayer → String → List WaitingPlayer
  | [], _ => []
  | q :: qs, pid =>
    if q.id = pid then removeFromQueue qs pid else q :: removeFromQueue qs pid

/-- `MatchmakingService.leaveQueue` (in-memory variant): when the identity is
present, delete it from the map and filter it out of the queue; no-op
otherwise. -/
def leaveQueue (st : MMState) (pid : String) : MMState :=
  match alookup st.waitingPlayers pid with
  | some _ =>
    { waitingPlayers := aerase st.waitingPlayers pid
      queue := removeFromQueue st.queue pid }
  | none => st

/-- `MatchmakingService.findMatch` (in-memory variant), restricted to the
queue state: with fewer than two players it returns nothing; otherwise it
takes the first two queue entries, removes both via `leaveQueue` and returns
them.  (The `GameService.createGame` call and the random colour coin it then
performs act on the session store, not on the queue.) -/
def findMatch (st : MMState) : MMState × Option (WaitingPlayer × WaitingPlayer) :=
  match st.queue with
  | p1 :: p2 :: _ =>
    let st1 := leaveQueue st p1.id
    let st2 := leaveQueue st1 p2.id
    (st2, some (p1, p2))
  | _ => (st, none)

/-- `MatchmakingService.isPlayerInQueue` (in-memory variant). -/
def isPlayerInQueue (st : MMState) (pid : String) : Bool :=
  (alookup st.waitingPlayers pid).isSome

/-- The `'join-matchmaking'` socket handler: reject with a
`matchmaking-error` carrying `'Already in queue'` when the identity is
already queued; otherwise enqueue and acknowledge. -/
def handleJoinMatchmaking (st : MMState) (p : WaitingPlayer) (senderSocket : String) :
    MMState × List Emit :=
  if isPlayerInQueue st p.id then
    (st, [{ target := senderSocket, toRoom := false, event := "matchmaking-error",
            error := some "Already in queue" }])
  else
    (joinQueue st p,
     [{ target := senderSocket, toRoom := false, event := "matchmaking-joined" },
      { target := "lobby", toRoom := true, event := "queue-status-update" }])

/-- One externally triggered matchmaking operation: a `join-matchmaking`
request, a `leave-matchmaking`/disconnect, or one poll of the 2-second
`findMatch` interval. -/
inductive MMOp where
  | join (p : WaitingPlayer)
  | leave (pid : String)
  | tryMatch
deriving DecidableEq, Repr

/-- Apply one matchmaking operation, reporting the matched pair if any. -/
def mmStep (st : MMState) : MMOp → MMState × Option (WaitingPlayer × WaitingPlayer)
  | .join p => (joinQueue st p, none)
  | .leave pid => (leaveQueue st pid, none)
  | .tryMatch => findMatch st

/-- Run a sequence of matchmaking operations, collecting the matched pairs
in order. -/
def mmRun (st : MMState) : List MMOp → MMState × List (WaitingPlayer × WaitingPlayer)
  | [] => (st, [])
  | op :: ops =>
    match mmStep st op with
    | (st1, none) => mmRun st1 ops
    | (st1, some pr) =>
      match mmRun st1 ops with
      | (st2, prs) => (st2, pr :: prs)

/-- The queue/map consistency invariant of the in-memory matchmaking state:
no identity occurs twice in the queue, and an identity is keyed in
`waitingPlayers` exactly when it occurs in the queue. -/
def mmInv (st : MMState) : Prop :=
  (st.queue.map WaitingPlayer.id).Nodup ∧
  (∀ pid ∈ st.waitingPlayers.map Prod.fst, pid ∈ st.queue.map WaitingPlayer.id) ∧
  (∀ pid ∈ st.queue.map WaitingPlayer.id, pid ∈ st.waitingPlayers.map Prod.fst)

instance (st : MMState) : Decidable (mmInv st) := by
  unfold mmInv
  infer_instance

/-- A queue ascending by enqueue timestamp. -/
def sortedByTime (l : List WaitingPlayer) : Prop :=
  l.Pairwise (fun a b => a.joinedAt ≤ b.joinedAt)

instance (l : List WaitingPlayer) : Decidable (sortedByTime l) := by
  unfold sortedByTime
  infer_instance

theorem insJoin_perm (p : WaitingPlayer) (l : List WaitingPlayer) :
    (insJoin p l).Perm (p :: l) := by
  induction l with
  | nil => simp [insJoin]
  | cons q qs ih =>
    by_cases h : q.joinedAt < p.joinedAt
    · simp only [insJoin, if_pos h]
      exact (ih.cons q).trans (List.Perm.swap p q qs)
    · simp [insJoin, h]

theorem sortByTime_perm (l : List WaitingPlayer) : (sortByTime l).Perm l := by
  induction l with
  | nil => simp [sortByTime]
  | cons p ps ih =>
    exact (insJoin_perm p (sortByTime ps)).trans (ih.cons p)

theorem mem_insJoin (a p : WaitingPlayer) (l : List WaitingPlayer) :
    a ∈ insJoin p l ↔ a = p ∨ a ∈ l := by
  constructor
  · intro h
    simpa using (insJoin_perm p l).mem_iff.mp h
  · intro h
    refine (insJoin_perm p l).mem_iff.mpr ?h
    simpa using h

theorem insJoin_sorted (p : WaitingPlayer) (l : List WaitingPlayer)
    (h : sortedByTime l) : sortedByTime (insJoin p l) := by
  induction l with
  | nil => simp [insJoin, sortedByTime]
  | cons q qs ih =>
    rw [sortedByTime, List.pairwise_cons] at h
    by_cases hq : q.joinedAt < p.joinedAt
    · rw [insJoin, if_pos hq, sortedByTime, List.pairwise_cons]
      refine ⟨?_, ih h.2⟩
      intro b hb
      rcases (mem_insJoin b p qs).mp hb with hbp | hbq
      · exact hbp ▸ Nat.le_of_lt hq
      · exact h.1 b hbq
    · rw [insJoin, if_neg hq, sortedByTime, List.pairwise_cons]
      have hpq : p.joinedAt ≤ q.joinedAt := Nat.le_of_not_lt hq
      refine ⟨?_, ?_⟩
      · intro b hb
        rcases List.mem_cons.mp hb with hbq | hbqs
        · exact hbq ▸ hpq
        · exact Nat.le_trans hpq (h.1 b hbqs)
      · exact List.pairwise_cons.mpr ⟨h.1, h.2⟩

theorem sortByTime_sorted (l : List WaitingPlayer) : sortedByTime (sortByTime l) := by
  induction l with
  | nil => simp [sortByTime, sortedByTime]
  | cons p ps ih => exact insJoin_sorted p (sortByTime ps) ih

theorem insJoin_eq_cons (p : WaitingPlayer) (l : List WaitingPlayer)
    (h : ∀ q ∈ l, p.joinedAt ≤ q.joinedAt) : insJoin p l = p :: l := by
  cases l with
  | nil => rfl
  | cons q qs =>
    have : ¬ q.joinedAt < p.joinedAt :=
      Nat.not_lt.mpr (h q (List.mem_cons_self q qs))
    rw [insJoin, if_neg this]

theorem sortByTime_sorted_append (l : List WaitingPlayer) (p : WaitingPlayer)
    (hs : sortedByTime l) (hp : ∀ q ∈ l, q.joinedAt ≤ p.joinedAt) :
    sortByTime (l ++ [p]) = l ++ [p] := by
  induction l with
  | nil => rfl
  | cons x xs ih =>
    rw [sortedByTime, List.pairwise_cons] at hs
    have hxs : sortByTime (xs ++ [p]) = xs ++ [p] :=
      ih hs.2 (fun q hq => hp q (List.mem_cons_of_mem x hq))
    have hx : ∀ y ∈ xs ++ [p], x.joinedAt ≤ y.joinedAt := by
      intro y hy
      rcases List.mem_append.mp hy with hyxs | hyp
      · exact hs.1 y hyxs
      · have : y = p := by simpa using hyp
        exact this ▸ hp x (List.mem_cons_self x xs)
    calc sortByTime (x :: xs ++ [p])
        = insJoin x (sortByTime (xs ++ [p])) := rfl
      _ = insJoin x (xs ++ [p]) := by rw [hxs]
      _ = x :: (xs ++ [p]) := insJoin_eq_cons x (xs ++ [p]) hx

theorem removeFromQueue_sublist (l : List WaitingPlayer) (pid : String) :
    (removeFromQueue l pid).Sublist l := by
  induction l with
  | nil => simp [removeFromQueue]
  | cons q qs ih =>
    by_cases h : q.id = pid
    · rw [removeFromQueue, if_pos h]
      exact ih.cons q
    · rw [removeFromQueue, if_neg h]
      exact ih.cons₂ q

theorem mem_ids_removeFromQueue (l : List WaitingPlayer) (pid x : String) :
    x ∈ (removeFromQueue l pid).map WaitingPlayer.id ↔
      x ≠ pid ∧ x ∈ l.map WaitingPlayer.id := by
  induction l with
  | nil => simp [removeFromQueue]
  | cons q qs ih =>
    by_cases h : q.id = pid
    · subst h
      rw [removeFromQueue, if_pos rfl]
      simp [ih]
      tauto
    · rw [removeFromQueue, if_neg h]
      by_cases hx : x = q.id
      · subst hx
        simp [ih, h]
      · simp [ih, hx]

theorem removeFromQueue_eq_self (l : List WaitingPlayer) (pid : String)
    (h : pid ∉ l.map WaitingPlayer.id) : removeFromQueue l pid = l := by
  induction l with
  | nil => rfl
  | cons q qs ih =>
    simp only [List.map_cons, List.mem_cons] at h
    push_neg at h
    rw [removeFromQueue, if_neg (fun he => h.1 he.symm), ih h.2]

theorem joinQueue_inv (st : MMState) (p : WaitingPlayer) (h : mmInv st) :
    mmInv (joinQueue st p) := by
  obtain ⟨hnd, hmq, hqm⟩ := h
  by_cases hin : (alookup st.waitingPlayers p.id).isSome
  · simpa [joinQueue, hin] using ⟨hnd, hmq, hqm⟩
  · have hkeys : p.id ∉ st.waitingPlayers.map Prod.fst := by
      intro hmem
      exact hin ((alookup_isSome_iff_mem_keys st.waitingPlayers p.id).mpr hmem)
    have hqid : p.id ∉ st.queue.map WaitingPlayer.id := fun hmem => hkeys (hqm p.id hmem)
    have hperm : ((sortByTime (st.queue ++ [p])).map WaitingPlayer.id).Perm
        (st.queue.map WaitingPlayer.id ++ [p.id]) := by
      have h1 := (sortByTime_perm (st.queue ++ [p])).map WaitingPlayer.id
      simpa using h1
    rw [joinQueue, if_neg hin]
    unfold mmInv
    refine ⟨?nodup, ?mq, ?qm⟩
    · refine hperm.nodup_iff.mpr ?nd
      simp [List.nodup_append, hnd, hqid]
    · intro pid hpid
      have hpid2 := (mem_keys_aset st.waitingPlayers p.id pid p).mp hpid
      rw [hperm.mem_iff, List.mem_append]
      rcases hpid2 with hp | hm
      · right; simp [hp]
      · left; exact hmq pid hm
    · intro pid hpid
      rw [hperm.mem_iff, List.mem_append] at hpid
      rw [mem_keys_aset]
      rcases hpid with hm | hp
      · right; exact hqm pid hm
      · left; simpa using hp

theorem leaveQueue_inv (st : MMState) (pid : String) (h : mmInv st) :
    mmInv (leaveQueue st pid) := by
  obtain ⟨hnd, hmq, hqm⟩ := h
  cases hl : alookup st.waitingPlayers pid with
  | none => simpa [leaveQueue, hl] using ⟨hnd, hmq, hqm⟩
  | some w =>
    simp only [leaveQueue, hl]
    unfold mmInv
    refine ⟨?nodup, ?mq, ?qm⟩
    · exact hnd.sublist ((removeFromQueue_sublist st.queue pid).map WaitingPlayer.id)
    · intro pid' hpid'
      have h2 := (mem_keys_aerase st.waitingPlayers pid pid').mp hpid'
      exact (mem_ids_removeFromQueue st.queue pid pid').mpr ⟨h2.1, hmq pid' h2.2⟩
    · intro pid' hpid'
      have h2 := (mem_ids_removeFromQueue st.queue pid pid').mp hpid'
      exact (mem_keys_aerase st.waitingPlayers pid pid').mpr ⟨h2.1, hqm pid' h2.2⟩

theorem findMatch_inv (st : MMState) (h : mmInv st) : mmInv (findMatch st).1 := by
  cases hq : st.queue with
  | nil => simpa [findMatch, hq] using h
  | cons p1 rest1 =>
    cases rest1 with
    | nil => simpa [findMatch, hq] using h
    | cons p2 rest =>
      have h1 := leaveQueue_inv st p1.id h
      have h2 := leaveQueue_inv _ p2.id h1
      simpa [findMatch, hq] using h2

theorem mmStep_inv (st : MMState) (op : MMOp) (h : mmInv st) :
    mmInv (mmStep st op).1 := by
  cases op with
  | join p => exact joinQueue_inv st p h
  | leave pid => exact leaveQueue_inv st pid h
  | tryMatch => exact findMatch_inv st h

theorem mmRun_inv (st : MMState) (ops : List MMOp) (h : mmInv st) :
    mmInv (mmRun st ops).1 := by
  induction ops generalizing st with
  | nil => simpa [mmRun] using h
  | cons op ops ih =>
    have h1 := mmStep_inv st op h
    cases hs : mmStep st op with
    | mk st1 matched =>
      rw [hs] at h1
      cases matched with
      | none => simpa [mmRun, hs] using ih st1 h1
      | some pr =>
        cases hr : mmRun st1 ops with
        | mk st2 prs => simpa [mmRun, hs, hr] using ih st1 h1

theorem mmInv_mmEmpty : mmInv mmEmpty := by
  unfold mmInv mmEmpty
  simp

theorem makeMove_wrong_turn (rules : RulesAdapter) (dbOk : Bool) (sys : Sys)
    (gameId pid move : String) (gs : GameState)
    (hget : sessionView sys gameId = some gs)
    (hactive : gs.status = "active")
    (hturn : gs.turn ≠ (if gs.white_player_id = pid then "white" else "black")) :
    makeMove rules dbOk sys gameId pid move =
      ((getGameState sys gameId).1,
       { success := false, error := some "Not your turn" }) := by
  rcases hp : getGameState sys gameId with ⟨s1, o⟩
  have ho : o = some gs := by
    have h0 : (getGameState sys gameId).2 = some gs := hget
    rw [hp] at h0
    exact h0
  subst ho
  simp only [makeMove, hp]
  simp [hactive, hturn]

/-- C3: a move submitted by the player whose side is not the side-to-move of
an active session fails with `Not your turn`; the observable session state
(position, side-to-move, history) and the database are unchanged, the timer
set is unchanged, and the only emission is a `move-error` to the submitting
socket — nothing is broadcast to the opponent's game room. -/
theorem c3_not_your_turn (rules : RulesAdapter) (dbOk : Bool) (sys : Sys)
    (timers : List String) (gameId senderSocket pid move : String) (gs : GameState)
    (hget : sessionView sys gameId = some gs)
    (hactive : gs.status = "active")
    (hturn : gs.turn ≠ (if gs.white_player_id = pid then "white" else "black")) :
    (handleMakeMove rules dbOk sys timers gameId senderSocket pid move).2.2 =
      [{ target := senderSocket, toRoom := false, event := "move-error",
         error := some "Not your turn" }] ∧
    sessionView (handleMakeMove rules dbOk sys timers gameId senderSocket pid move).1
      gameId = some gs ∧
    (handleMakeMove rules dbOk sys timers gameId senderSocket pid move).1.db = sys.db ∧
    (handleMakeMove rules dbOk sys timers gameId senderSocket pid move).2.1 = timers := by
  have hmm := makeMove_wrong_turn rules dbOk sys gameId pid move gs hget hactive hturn
  have hview : sessionView (getGameState sys gameId).1 gameId = some gs := by
    rw [sessionView_getGameState]
    exact hget
  have hdb : ((getGameState sys gameId).1).db = sys.db := getGameState_db sys gameId
  simp only [handleMakeMove, hmm]
  simp [hview, hdb]

/-- Closed witness for `c3_not_your_turn`: in the concrete fixture `sysDemo`
(white `alice` to move), a move by `bob` is rejected without any state
change or room broadcast. -/
theorem c3_not_your_turn_witness :
    (handleMakeMove rulesDemo true sysDemo ["g1"] "g1" "sockB" "bob" "e5").2.2 =
      [{ target := "sockB", toRoom := false, event := "move-error",
         error := some "Not your turn" }] ∧
    sessionView (handleMakeMove rulesDemo true sysDemo ["g1"] "g1" "sockB" "bob" "e5").1
      "g1" = some gsDemo ∧
    (handleMakeMove rulesDemo true sysDemo ["g1"] "g1" "sockB" "bob" "e5").1.db =
      sysDemo.db ∧
    (handleMakeMove rulesDemo true sysDemo ["g1"] "g1" "sockB" "bob" "e5").2.1 = ["g1"] :=
  c3_not_your_turn rulesDemo true sysDemo ["g1"] "g1" "sockB" "bob" "e5" gsDemo
    (by decide) (by decide) (by decide)

/-- C4: `makeMove` is write-through.  (a) When the durable write fails
(`dbOk = false`), the whole call fails, the database is untouched and the
observable session state is unchanged — the fast store and the durable store
are never left inconsistent by a failed move.  (b) When the call returns
success, the durable row has been updated: for a terminal move the outcome
is finalized (`status = 'completed'` with the session's result), otherwise
the row carries exactly the new position and history of the cached session. -/
theorem c4_write_through (rules : RulesAdapter) (sys : Sys) (gameId pid move : String) :
    ((makeMove rules false sys gameId pid move).2.success = false ∧
     (makeMove rules false sys gameId pid move).1.db = sys.db ∧
     sessionView (makeMove rules false sys gameId pid move).1 gameId =
       sessionView sys gameId) ∧
    (∀ row : DbGame, alookup sys.db gameId = some row →
      (makeMove rules true sys gameId pid move).2.success = true →
      ∃ gs' row',
        alookup (makeMove rules true sys gameId pid move).1.gameCache gameId = some gs' ∧
        alookup (makeMove rules true sys gameId pid move).1.db gameId = some row' ∧
        ((gs'.status = "completed" ∧ row'.status = "completed" ∧
            some row'.result = gs'.result) ∨
         (gs'.status = "active" ∧ row'.fen = gs'.fen ∧ some row'.pgn = gs'.pgn))) := by
  rcases hp : getGameState sys gameId with ⟨s1, o⟩
  have hdb1 : s1.db = sys.db := by
    have h0 := getGameState_db sys gameId
    rw [hp] at h0
    exact h0
  have hview1 : sessionView s1 gameId = sessionView sys gameId := by
    have h0 := sessionView_getGameState sys gameId
    rw [hp] at h0
    exact h0
  constructor
  · cases o with
    | none => simp [makeMove, hp, hdb1, hview1]
    | some gs =>
      by_cases h1 : gs.status = "active"
      · by_cases h2 : gs.turn = (if gs.white_player_id = pid then "white" else "black")
        · cases hr : rules gs.fen move with
          | none => simp [makeMove, hp, h1, h2, hr, hdb1, hview1]
          | some mo =>
            by_cases hgo : mo.isGameOver = true <;>
              simp [makeMove, hp, h1, h2, hr, hgo, hdb1, hview1]
        · simp [makeMove, hp, h1, h2, hdb1, hview1]
      · simp [makeMove, hp, h1, hdb1, hview1]
  · intro row hrow hs
    have hrow1 : alookup s1.db gameId = some row := by rw [hdb1]; exact hrow
    cases o with
    | none => simp [makeMove, hp] at hs
    | some gs =>
      by_cases h1 : gs.status = "active"
      · by_cases h2 : gs.turn = (if gs.white_player_id = pid then "white" else "black")
        · cases hr : rules gs.fen move with
          | none => simp [makeMove, hp, h1, h2, hr] at hs
          | some mo =>
            by_cases hgo : mo.isGameOver = true
            · have hEq : makeMove rules true sys gameId pid move =
                  ({ gameCache := aset s1.gameCache gameId
                       { gs with
                         fen := mo.newFen
                         turn := if mo.tAfter = "w" then "white" else "black"
                         status := "completed"
                         pgn := some mo.pgn
                         result := some (if mo.isCheckmate = true then
                           (if mo.tAfter = "w" then "black_wins" else "white_wins")
                           else "draw") }
                     db := dbEndGame s1.db gameId (if mo.isCheckmate = true then
                           (if mo.tAfter = "w" then "black_wins" else "white_wins")
                           else "draw") },
                   { success := true
                     fen := some mo.newFen
                     turn := some (if mo.tAfter = "w" then "white" else "black")
                     isGameOver := some true }) := by
                simp [makeMove, hp, h1, h2, hr, hgo]
              rw [hEq]
              exact ⟨_, _, alookup_aset_self _ _ _,
                alookup_dbEndGame_self s1.db gameId _ row hrow1, Or.inl ⟨rfl, rfl, rfl⟩⟩
            · have hEq : makeMove rules true sys gameId pid move =
                  ({ gameCache := aset s1.gameCache gameId
                       { gs with
                         fen := mo.newFen
                         turn := if mo.tAfter = "w" then "white" else "black"
                         status := "active"
                         pgn := some mo.pgn }
                     db := dbUpdateGameState s1.db gameId mo.newFen mo.pgn },
                   { success := true
                     fen := some mo.newFen
                     turn := some (if mo.tAfter = "w" then "white" else "black")
                     isGameOver := some false }) := by
                simp [makeMove, hp, h1, h2, hr, hgo]
              rw [hEq]
              exact ⟨_, _, alookup_aset_self _ _ _,
                alookup_dbUpdateGameState_self s1.db gameId _ _ row hrow1,
                Or.inr ⟨rfl, rfl, rfl⟩⟩
        · simp [makeMove, hp, h1, h2] at hs
      · simp [makeMove, hp, h1] at hs

/-- Closed witness for `c4_write_through` at the concrete fixture: a quiet
move on `sysDemo` with a working database, plus the guaranteed-failure shape
with a broken database. -/
theorem c4_write_through_witness :
    ∃ gs' row',
      alookup (makeMove rulesDemo true sysDemo "g1" "alice" "e4").1.gameCache "g1" =
        some gs' ∧
      alookup (makeMove rulesDemo true sysDemo "g1" "alice" "e4").1.db "g1" = some row' ∧
      ((gs'.status = "completed" ∧ row'.status = "completed" ∧
          some row'.result = gs'.result) ∨
       (gs'.status = "active" ∧ row'.fen = gs'.fen ∧ some row'.pgn = gs'.pgn)) :=
  (c4_write_through rulesDemo sysDemo "g1" "alice" "e4").2 rowDemo (by decide) (by decide)

/-- C9: for every accepted move on an active session (rules adapter
alternating the side-to-move token, as chess.js does), the cached session's
side-to-move flips to the opposite side, and its result field holds a
decided outcome exactly when its status has become `completed` (sessions
start with no result in-process, or with the placeholder `'ongoing'` when
loaded from the database). -/
theorem c9_alternation_outcome (rules : RulesAdapter) (sys : Sys)
    (gameId pid move : String) (gs : GameState) (mo : MoveOutcome)
    (hget : sessionView sys gameId = some gs)
    (hactive : gs.status = "active")
    (hturn : gs.turn = (if gs.white_player_id = pid then "white" else "black"))
    (hr : rules gs.fen move = some mo)
    (halt : mo.tAfter = (if gs.turn = "white" then "b" else "w"))
    (hres : gs.result = none ∨ gs.result = some "ongoing") :
    (makeMove rules true sys gameId pid move).2.success = true ∧
    ∃ gs',
      alookup (makeMove rules true sys gameId pid move).1.gameCache gameId = some gs' ∧
      gs'.turn = (if gs.turn = "white" then "black" else "white") ∧
      (gs'.status = "completed" ↔ (gs'.result ≠ none ∧ gs'.result ≠ some "ongoing")) := by
  rcases hp : getGameState sys gameId with ⟨s1, o⟩
  have ho : o = some gs := by
    have h0 : (getGameState sys gameId).2 = some gs := hget
    rw [hp] at h0
    exact h0
  subst ho
  have hnewTurn : (if mo.tAfter = "w" then "white" else "black") =
      (if gs.turn = "white" then "black" else "white") := by
    by_cases hwt : gs.turn = "white"
    · have ht : mo.tAfter = "b" := by rw [halt, if_pos hwt]
      rw [ht, hwt]
      decide
    · have ht : mo.tAfter = "w" := by rw [halt, if_neg hwt]
      rw [ht, if_neg hwt]
      decide
  by_cases hgo : mo.isGameOver = true
  · have hEq : makeMove rules true sys gameId pid move =
        ({ gameCache := aset s1.gameCache gameId
             { gs with
               fen := mo.newFen
               turn := if mo.tAfter = "w" then "white" else "black"
               status := "completed"
               pgn := some mo.pgn
               result := some (if mo.isCheckmate = true then
                 (if mo.tAfter = "w" then "black_wins" else "white_wins")
                 else "draw") }
           db := dbEndGame s1.db gameId (if mo.isCheckmate = true then
                 (if mo.tAfter = "w" then "black_wins" else "white_wins")
                 else "draw") },
         { success := true
           fen := some mo.newFen
           turn := some (if mo.tAfter = "w" then "white" else "black")
           isGameOver := some true }) := by
      simp [makeMove, hp, hactive, hturn, hr, hgo]
    rw [hEq]
    refine ⟨rfl, _, alookup_aset_self _ _ _, hnewTurn, ?_⟩
    constructor
    · intro _
      refine ⟨by simp, ?_⟩
      by_cases hc : mo.isCheckmate = true <;> by_cases hw2 : mo.tAfter = "w" <;>
        simp [hc, hw2]
    · intro _
      rfl
  · have hEq : makeMove rules true sys gameId pid move =
        ({ gameCache := aset s1.gameCache gameId
             { gs with
               fen := mo.newFen
               turn := if mo.tAfter = "w" then "white" else "black"
               status := "active"
               pgn := some mo.pgn }
           db := dbUpdateGameState s1.db gameId mo.newFen mo.pgn },
         { success := true
           fen := some mo.newFen
           turn := some (if mo.tAfter = "w" then "white" else "black")
           isGameOver := some false }) := by
      simp [makeMove, hp, hactive, hturn, hr, hgo]
    rw [hEq]
    refine ⟨rfl, _, alookup_aset_self _ _ _, hnewTurn, ?_⟩
    constructor
    · intro hco
      exact absurd hco (show ("active" : String) ≠ "completed" by decide)
    · intro hdec
      rcases hres with h0 | h0 <;> simp [h0] at hdec
/-- Closed witness for `c9_alternation_outcome`: the quiet move `e4` by
`alice` on `sysDemo` flips the side-to-move from white to black and leaves
the outcome undecided. -/
theorem c9_alternation_outcome_witness :
    (makeMove rulesDemo true sysDemo "g1" "alice" "e4").2.success = true ∧
    ∃ gs',
      alookup (makeMove rulesDemo true sysDemo "g1" "alice" "e4").1.gameCache "g1" =
        some gs' ∧
      gs'.turn = (if gsDemo.turn = "white" then "black" else "white") ∧
      (gs'.status = "completed" ↔ (gs'.result ≠ none ∧ gs'.result ≠ some "ongoing")) :=
  c9_alternation_outcome rulesDemo sysDemo "g1" "alice" "e4" gsDemo moQuiet
    (by decide) (by decide) (by decide) (by decide) (by decide) (Or.inl (by decide))

/-- C10: `makeMove` infers the acting side solely from a comparison with the
white player's id, so a caller who is *neither* participant is treated as
playing black: when black is to move, such a caller's legal move is accepted
and applied to the session. -/
theorem c10_nonparticipant_plays_black (rules : RulesAdapter) (sys : Sys)
    (gameId pid move : String) (gs : GameState) (mo : MoveOutcome)
    (hget : sessionView sys gameId = some gs)
    (hactive : gs.status = "active")
    (hblack : gs.turn = "black")
    (hw : pid ≠ gs.white_player_id)
    (_hb : pid ≠ gs.black_player_id)
    (hr : rules gs.fen move = some mo) :
    (makeMove rules true sys gameId pid move).2.success = true ∧
    ∃ gs',
      alookup (makeMove rules true sys gameId pid move).1.gameCache gameId = some gs' ∧
      gs'.fen = mo.newFen := by
  rcases hp : getGameState sys gameId with ⟨s1, o⟩
  have ho : o = some gs := by
    have h0 : (getGameState sys gameId).2 = some gs := hget
    rw [hp] at h0
    exact h0
  subst ho
  have hturn : gs.turn = (if gs.white_player_id = pid then "white" else "black") := by
    rw [if_neg (fun he => hw he.symm)]
    exact hblack
  by_cases hgo : mo.isGameOver = true
  · have hEq : makeMove rules true sys gameId pid move =
        ({ gameCache := aset s1.gameCache gameId
             { gs with
               fen := mo.newFen
               turn := if mo.tAfter = "w" then "white" else "black"
               status := "completed"
               pgn := some mo.pgn
               result := some (if mo.isCheckmate = true then
                 (if mo.tAfter = "w" then "black_wins" else "white_wins")
                 else "draw") }
           db := dbEndGame s1.db gameId (if mo.isCheckmate = true then
                 (if mo.tAfter = "w" then "black_wins" else "white_wins")
                 else "draw") },
         { success := true
           fen := some mo.newFen
           turn := some (if mo.tAfter = "w" then "white" else "black")
           isGameOver := some true }) := by
      simp [makeMove, hp, hactive, hturn, hr, hgo]
    rw [hEq]
    exact ⟨rfl, _, alookup_aset_self _ _ _, rfl⟩
  · have hEq : makeMove rules true sys gameId pid move =
        ({ gameCache := aset s1.gameCache gameId
             { gs with
               fen := mo.newFen
               turn := if mo.tAfter = "w" then "white" else "black"
               status := "active"
               pgn := some mo.pgn }
           db := dbUpdateGameState s1.db gameId mo.newFen mo.pgn },
         { success := true
           fen := some mo.newFen
           turn := some (if mo.tAfter = "w" then "white" else "black")
           isGameOver := some false }) := by
      simp [makeMove, hp, hactive, hturn, hr, hgo]
    rw [hEq]
    exact ⟨rfl, _, alookup_aset_self _ _ _, rfl⟩

/-- Closed witness for `c10_nonparticipant_plays_black`: on `sysDemoB`
(black to move), the stranger `mallory` — neither `alice` nor `bob` — plays
`e5` and the move is accepted and applied. -/
theorem c10_nonparticipant_plays_black_witness :
    (makeMove rulesDemo true sysDemoB "g1" "mallory" "e5").2.success = true ∧
    ∃ gs',
      alookup (makeMove rulesDemo true sysDemoB "g1" "mallory" "e5").1.gameCache "g1" =
        some gs' ∧
      gs'.fen = moQuietB.newFen :=
  c10_nonparticipant_plays_black rulesDemo sysDemoB "g1" "mallory" "e5" gsDemoB moQuietB
    (by decide) (by decide) (by decide) (by decide) (by decide) (by decide)

/-- The system state after white (`alice`) resigns session `g1` of
`sysDemo` through the `'resign'` handler. -/
def sysAfterResign : Sys := (handleResign sysDemo ["g1"] "g1" "alice").1

/-- C1 (code bug): resignation finalizes the durable row with the other side
as winner — but it never touches the `GameService` in-memory cache, whose
entry still reads `'active'`.  A move submitted afterwards (here by the very
player who resigned) is therefore *accepted* and mutates the session, where
the claim requires it to fail with the session-not-active error and leave
state unchanged. -/
theorem c1_resign_then_move_accepted :
    alookup sysAfterResign.db "g1" =
      some { rowDemo with status := "completed", result := "black_wins" } ∧
    alookup sysAfterResign.gameCache "g1" = some gsDemo ∧
    (makeMove rulesDemo true sysAfterResign "g1" "alice" "e4").2.success = true ∧
    sessionView (makeMove rulesDemo true sysAfterResign "g1" "alice" "e4").1 "g1" ≠
      sessionView sysAfterResign "g1" := by
  decide

/-- The system state after the inactivity timer for `g1` fires on `sysDemo`
while the session is still active. -/
def sysAfterTimeout : Sys := (handleGameTimeout sysDemo ["g1"] "g1").1

/-- A completed-session fixture: cache and database both already read
`'completed'`. -/
def sysDone : Sys :=
  { gameCache := [("g1", { gsDemo with status := "completed", result := some "white_wins" })]
    db := [("g1", { rowDemo with status := "completed", result := "white_wins" })] }

/-- C8 (code bug): firing the timer on an already-completed session is indeed
a no-op (no broadcast, no state change beyond dropping the timer entry).
But firing it on a still-active session only finalizes the durable row and
broadcasts `game-over` — `cleanupCompletedGame` no-ops because the cached
status was never set to `'completed'`, so the authoritative cached session
stays `'active'` and still accepts moves: the session is not actually
ended. -/
theorem c8_timeout_cache_stale :
    (handleGameTimeout sysDone ["g1"] "g1").2.2 = [] ∧
    (handleGameTimeout sysDone ["g1"] "g1").1 = sysDone ∧
    (handleGameTimeout sysDone ["g1"] "g1").2.1 = [] ∧
    (handleGameTimeout sysDemo ["g1"] "g1").2.2 =
      [{ target := "game-g1", toRoom := true, event := "game-over",
         result := some "draw", reason := some "timeout" }] ∧
    alookup sysAfterTimeout.db "g1" =
      some { rowDemo with status := "completed", result := "draw" } ∧
    alookup sysAfterTimeout.gameCache "g1" = some gsDemo ∧
    (makeMove rulesDemo true sysAfterTimeout "g1" "alice" "e4").2.success = true := by
  decide

/-- C2 counterexample: a rules-detected terminal move (checkmate) is an
`active → completed` transition — the durable row is finalized — yet the
`'make-move'` handler broadcasts *zero* `game-over` events (only a
`move-made`), so this transition does not broadcast exactly one `game-over`
event with a `checkmate` reason. -/
theorem c2_terminal_move_no_game_over_event :
    countEvent (handleMakeMove rulesDemo true sysDemo ["g1"] "g1" "sockA" "alice" "qh5").2.2
      "game-over" = 0 ∧
    countEvent (handleMakeMove rulesDemo true sysDemo ["g1"] "g1" "sockA" "alice" "qh5").2.2
      "move-made" = 1 ∧
    alookup (handleMakeMove rulesDemo true sysDemo ["g1"] "g1" "sockA" "alice" "qh5").1.db
      "g1" = some { rowDemo with status := "completed", result := "white_wins" } ∧
    (handleMakeMove rulesDemo true sysDemo ["g1"] "g1" "sockA" "alice" "qh5").2.1 = [] := by
  decide

/-- C2 as amended: the resignation, draw-agreement and timeout transitions
each cancel the session's timer, finalize the durable outcome and broadcast
exactly one `game-over` event with their machine-distinguishable reason
(`resignation`/`agreement`/`timeout`); a rules-detected terminal move cancels
the timer and persists the outcome but broadcasts a single `move-made` event
carrying the game-over flag instead of any `game-over` event. -/
theorem c2_terminal_transitions :
    (∀ (sys : Sys) (timers : List String) (gameId uid : String) (game : DbGame),
      alookup sys.db gameId = some game →
      (handleResign sys timers gameId uid).2.2 =
        [{ target := "game-" ++ gameId, toRoom := true, event := "game-over",
           result := some (if game.white_player_id = uid then "black_wins" else "white_wins"),
           winner := some (if game.white_player_id = uid then "Black" else "White"),
           reason := some "resignation" }] ∧
      (handleResign sys timers gameId uid).2.1 = timerClear gameId timers ∧
      alookup (handleResign sys timers gameId uid).1.db gameId =
        some { game with
               status := "completed"
               result := if game.white_player_id = uid then "black_wins" else "white_wins" }) ∧
    (∀ (sys : Sys) (timers : List String) (gameId : String) (game : DbGame),
      alookup sys.db gameId = some game →
      (handleAcceptDraw sys timers gameId).2.2 =
        [{ target := "game-" ++ gameId, toRoom := true, event := "draw-accepted" },
         { target := "game-" ++ gameId, toRoom := true, event := "game-over",
           result := some "draw", reason := some "agreement" }] ∧
      (handleAcceptDraw sys timers gameId).2.1 = timerClear gameId timers ∧
      alookup (handleAcceptDraw sys timers gameId).1.db gameId =
        some { game with status := "completed", result := "draw" }) ∧
    (∀ (sys : Sys) (timers : List String) (gameId : String) (gs : GameState) (game : DbGame),
      sessionView sys gameId = some gs → gs.status = "active" →
      alookup sys.db gameId = some game →
      (handleGameTimeout sys timers gameId).2.2 =
        [{ target := "game-" ++ gameId, toRoom := true, event := "game-over",
           result := some "draw", reason := some "timeout" }] ∧
      (handleGameTimeout sys timers gameId).2.1 = timerClear gameId timers ∧
      alookup (handleGameTimeout sys timers gameId).1.db gameId =
        some { game with status := "completed", result := "draw" }) ∧
    (∀ (rules : RulesAdapter) (dbOk : Bool) (sys : Sys) (timers : List String)
      (gameId sock pid move : String),
      (makeMove rules dbOk sys gameId pid move).2.success = true →
      (makeMove rules dbOk sys gameId pid move).2.isGameOver = some true →
      (handleMakeMove rules dbOk sys timers gameId sock pid move).2.2 =
        [{ target := "game-" ++ gameId, toRoom := true, event := "move-made",
           fen := (makeMove rules dbOk sys gameId pid move).2.fen }] ∧
      (handleMakeMove rules dbOk sys timers gameId sock pid move).2.1 =
        timerClear gameId timers) := by
  refine ⟨?resign, ?agreement, ?timeout, ?terminal⟩
  case resign =>
    intro sys timers gameId uid game hgame
    by_cases hwp : game.white_player_id = uid
    · refine ⟨?_, ?_, ?_⟩ <;>
        simp [handleResign, hgame, hwp, alookup_dbEndGame_self sys.db gameId _ game hgame]
    · refine ⟨?_, ?_, ?_⟩ <;>
        simp [handleResign, hgame, hwp, alookup_dbEndGame_self sys.db gameId _ game hgame]
  case agreement =>
    intro sys timers gameId game hgame
    exact ⟨rfl, rfl, by
      simp [handleAcceptDraw, alookup_dbEndGame_self sys.db gameId _ game hgame]⟩
  case timeout =>
    intro sys timers gameId gs game hget hactive hgame
    rcases hp : getGameState sys gameId with ⟨s1, o⟩
    have ho : o = some gs := by
      have h0 : (getGameState sys gameId).2 = some gs := hget
      rw [hp] at h0
      exact h0
    subst ho
    have hdb1 : s1.db = sys.db := by
      have h0 := getGameState_db sys gameId
      rw [hp] at h0
      exact h0
    have hgame1 : alookup s1.db gameId = some game := by rw [hdb1]; exact hgame
    have hfin := alookup_dbEndGame_self s1.db gameId "draw" game hgame1
    have hcd : ∀ s : Sys, (cleanupCompletedGame s gameId).db = s.db :=
      fun s => cleanupCompletedGame_db s gameId
    refine ⟨?_, ?_, ?_⟩ <;>
      simp [handleGameTimeout, hp, hactive, hcd, hfin]
  case terminal =>
    intro rules dbOk sys timers gameId sock pid move hs hgo
    rcases hm : makeMove rules dbOk sys gameId pid move with ⟨s', res⟩
    rw [hm] at hs hgo
    have hs' : res.success = true := hs
    have hgo' : res.isGameOver = some true := hgo
    have hne : ¬(res.isGameOver = some false) := by rw [hgo']; simp
    refine ⟨?_, ?_⟩ <;> simp [handleMakeMove, hm, hs', hne]

/-- Closed witness for `c2_terminal_transitions`, instantiating all four
transition kinds on the concrete fixtures. -/
theorem c2_terminal_transitions_witness :
    ((handleResign sysDemo ["g1"] "g1" "alice").2.2 =
      [{ target := "game-g1", toRoom := true, event := "game-over",
         result := some "black_wins", winner := some "Black",
         reason := some "resignation" }] ∧
     (handleResign sysDemo ["g1"] "g1" "alice").2.1 = timerClear "g1" ["g1"] ∧
     alookup (handleResign sysDemo ["g1"] "g1" "alice").1.db "g1" =
       some { rowDemo with status := "completed", result := "black_wins" }) ∧
    ((handleAcceptDraw sysDemo ["g1"] "g1").2.2 =
      [{ target := "game-g1", toRoom := true, event := "draw-accepted" },
       { target := "game-g1", toRoom := true, event := "game-over",
         result := some "draw", reason := some "agreement" }] ∧
     (handleAcceptDraw sysDemo ["g1"] "g1").2.1 = timerClear "g1" ["g1"] ∧
     alookup (handleAcceptDraw sysDemo ["g1"] "g1").1.db "g1" =
       some { rowDemo with status := "completed", result := "draw" }) ∧
    ((handleGameTimeout sysDemo ["g1"] "g1").2.2 =
      [{ target := "game-g1", toRoom := true, event := "game-over",
         result := some "draw", reason := some "timeout" }] ∧
     (handleGameTimeout sysDemo ["g1"] "g1").2.1 = timerClear "g1" ["g1"] ∧
     alookup (handleGameTimeout sysDemo ["g1"] "g1").1.db "g1" =
       some { rowDemo with status := "completed", result := "draw" }) ∧
    ((handleMakeMove rulesDemo true sysDemo ["g1"] "g1" "sockA" "alice" "qh5").2.2 =
      [{ target := "game-g1", toRoom := true, event := "move-made",
         fen := (makeMove rulesDemo true sysDemo "g1" "alice" "qh5").2.fen }] ∧
     (handleMakeMove rulesDemo true sysDemo ["g1"] "g1" "sockA" "alice" "qh5").2.1 =
       timerClear "g1" ["g1"]) := by
  have h := c2_terminal_transitions
  have h1 := h.1 sysDemo ["g1"] "g1" "alice" rowDemo (by decide)
  have h2 := h.2.1 sysDemo ["g1"] "g1" rowDemo (by decide)
  have h3 := h.2.2.1 sysDemo ["g1"] "g1" gsDemo rowDemo (by decide) (by decide) (by decide)
  have h4 := h.2.2.2 rulesDemo true sysDemo ["g1"] "g1" "sockA" "alice" "qh5"
    (by decide) (by decide)
  refine ⟨?_, h2, h3, h4⟩
  simpa using h1

/-- C5 as amended: with fewer than two waiting players `findMatch` returns
nothing and changes nothing; with at least two it removes and returns the
two front entries of the time-sorted queue — the players with the earliest
enqueue timestamps, equal timestamps resolved by join order (the queue's
stable sort), not by identity. -/
theorem c5_find_match_earliest (st : MMState) :
    (st.queue.length < 2 → findMatch st = (st, none)) ∧
    (∀ (p1 p2 : WaitingPlayer) (rest : List WaitingPlayer),
      mmInv st → sortedByTime st.queue → st.queue = p1 :: p2 :: rest →
      (findMatch st).2 = some (p1, p2) ∧
      (findMatch st).1.queue = rest ∧
      (∀ q ∈ st.queue, p1.joinedAt ≤ q.joinedAt) ∧
      (∀ q ∈ p2 :: rest, p2.joinedAt ≤ q.joinedAt)) := by
  constructor
  · intro hlen
    cases hq : st.queue with
    | nil => simp [findMatch, hq]
    | cons a l =>
      cases l with
      | nil => simp [findMatch, hq]
      | cons b l2 =>
        rw [hq] at hlen
        simp [List.length_cons] at hlen
        omega
  · intro p1 p2 rest hinv hsort hq
    obtain ⟨hnd, hmq, hqm⟩ := hinv
    rw [hq] at hnd hsort
    simp only [List.map_cons] at hnd
    have h1 := List.nodup_cons.mp hnd
    have h2 := List.nodup_cons.mp h1.2
    have hne21 : p2.id ≠ p1.id := fun he => h1.1 (by rw [he]; exact List.mem_cons_self _ _)
    have hp1rest : p1.id ∉ rest.map WaitingPlayer.id :=
      fun hm => h1.1 (List.mem_cons_of_mem _ hm)
    have hp2rest : p2.id ∉ rest.map WaitingPlayer.id := h2.1
    have hq1mem : p1.id ∈ st.queue.map WaitingPlayer.id := by rw [hq]; simp
    have hq2mem : p2.id ∈ st.queue.map WaitingPlayer.id := by rw [hq]; simp
    obtain ⟨w1, hw1⟩ := Option.isSome_iff_exists.mp
      ((alookup_isSome_iff_mem_keys _ _).mpr (hqm p1.id hq1mem))
    obtain ⟨w2, hw2⟩ := Option.isSome_iff_exists.mp
      ((alookup_isSome_iff_mem_keys _ _).mpr (hqm p2.id hq2mem))
    have hrm1 : removeFromQueue st.queue p1.id = p2 :: rest := by
      rw [hq, removeFromQueue, if_pos rfl, removeFromQueue, if_neg hne21,
        removeFromQueue_eq_self rest p1.id hp1rest]
    have hstep1 : leaveQueue st p1.id =
        { waitingPlayers := aerase st.waitingPlayers p1.id
          queue := p2 :: rest } := by
      simp [leaveQueue, hw1, hrm1]
    have hw2' : alookup (aerase st.waitingPlayers p1.id) p2.id = some w2 := by
      rw [alookup_aerase_ne _ hne21]
      exact hw2
    have hrm2 : removeFromQueue (p2 :: rest) p2.id = rest := by
      rw [removeFromQueue, if_pos rfl, removeFromQueue_eq_self rest p2.id hp2rest]
    have hstep2 : leaveQueue
        { waitingPlayers := aerase st.waitingPlayers p1.id
          queue := p2 :: rest } p2.id =
        { waitingPlayers := aerase (aerase st.waitingPlayers p1.id) p2.id
          queue := rest } := by
      simp [leaveQueue, hw2', hrm2]
    have hfm : findMatch st =
        ({ waitingPlayers := aerase (aerase st.waitingPlayers p1.id) p2.id
           queue := rest }, some (p1, p2)) := by
      simp [findMatch, hq, hstep1, hstep2]
    have hs1 := List.pairwise_cons.mp hsort
    have hs2 := List.pairwise_cons.mp hs1.2
    refine ⟨by rw [hfm], by rw [hfm], ?min1, ?min2⟩
    case min1 =>
      intro q hqmem
      rw [hq] at hqmem
      rcases List.mem_cons.mp hqmem with rfl | hm
      · exact Nat.le_refl _
      · exact hs1.1 q hm
    case min2 =>
      intro q hqmem
      rcases List.mem_cons.mp hqmem with rfl | hm
      · exact Nat.le_refl _
      · exact hs2.1 q hm

/-- Concrete queue fixture: three players with distinct timestamps. -/
def pw1 : WaitingPlayer :=
  { id := "ann", username := "Ann", rating := 1200, socketId := "s1", joinedAt := 1 }

/-- Second queue fixture player. -/
def pw2 : WaitingPlayer :=
  { id := "ben", username := "Ben", rating := 1100, socketId := "s2", joinedAt := 2 }

/-- Third queue fixture player. -/
def pw3 : WaitingPlayer :=
  { id := "cam", username := "Cam", rating := 1300, socketId := "s3", joinedAt := 3 }

/-- Queue fixture holding `pw1`, `pw2`, `pw3` in timestamp order. -/
def stThree : MMState :=
  joinQueue (joinQueue (joinQueue mmEmpty pw1) pw2) pw3

/-- Closed witness for `c5_find_match_earliest` at the three-player fixture:
the two earliest-joined players are matched and removed. -/
theorem c5_find_match_earliest_witness :
    (findMatch stThree).2 = some (pw1, pw2) ∧
    (findMatch stThree).1.queue = [pw3] ∧
    (∀ q ∈ stThree.queue, pw1.joinedAt ≤ q.joinedAt) ∧
    (∀ q ∈ pw2 :: [pw3], pw2.joinedAt ≤ q.joinedAt) :=
  (c5_find_match_earliest stThree).2 pw1 pw2 [pw3]
    (by decide) (by decide) (by decide)

/-- Tie fixture: players `cam2`, `ben2`, `ann2` share one enqueue timestamp
and join in that order. -/
def pTieC : WaitingPlayer :=
  { id := "cam2", username := "Cam2", rating := 1000, socketId := "t3", joinedAt := 7 }

/-- Tie fixture player joining second. -/
def pTieB : WaitingPlayer :=
  { id := "ben2", username := "Ben2", rating := 1000, socketId := "t2", joinedAt := 7 }

/-- Tie fixture player with the smallest identity, joining last. -/
def pTieA : WaitingPlayer :=
  { id := "ann2", username := "Ann2", rating := 1000, socketId := "t1", joinedAt := 7 }

/-- Queue after `cam2`, `ben2`, `ann2` join with equal timestamps. -/
def stTie : MMState :=
  joinQueue (joinQueue (joinQueue mmEmpty pTieC) pTieB) pTieA

/-- C5 counterexample: with all three timestamps equal, `findMatch` returns
`(cam2, ben2)` — join order — and leaves `ann2` queued, even though `ann2`
has an equally early timestamp and the least identity: ties are *not* broken
by identity (which would have selected `ann2` and `ben2`). -/
theorem c5_tie_break_not_identity :
    (findMatch stTie).2 = some (pTieC, pTieB) ∧
    pTieA ∈ stTie.queue ∧
    pTieA.joinedAt ≤ pTieC.joinedAt ∧ pTieA.joinedAt ≤ pTieB.joinedAt ∧
    pTieA.id.data < pTieC.id.data ∧ pTieA.id.data < pTieB.id.data := by
  decide

/-- C6: the `join-matchmaking` operation fails with the `Already in queue`
error (sent only to the requester, state unchanged) when the identity is
already queued; otherwise it records the player keyed by identity and inserts
the player into the queue kept ordered by enqueue timestamp — a plain append
whenever the newcomer's timestamp is not earlier than the queued ones. -/
theorem c6_join_queue (st : MMState) (p : WaitingPlayer) (sock : String) :
    (isPlayerInQueue st p.id = true →
      handleJoinMatchmaking st p sock =
        (st, [{ target := sock, toRoom := false, event := "matchmaking-error",
                error := some "Already in queue" }])) ∧
    (isPlayerInQueue st p.id = false →
      alookup (handleJoinMatchmaking st p sock).1.waitingPlayers p.id = some p ∧
      (handleJoinMatchmaking st p sock).1.queue = sortByTime (st.queue ++ [p]) ∧
      sortedByTime (handleJoinMatchmaking st p sock).1.queue ∧
      (sortedByTime st.queue → (∀ q ∈ st.queue, q.joinedAt ≤ p.joinedAt) →
        (handleJoinMatchmaking st p sock).1.queue = st.queue ++ [p])) := by
  constructor
  · intro h
    simp [handleJoinMatchmaking, h]
  · intro h
    have h' : ¬ (alookup st.waitingPlayers p.id).isSome = true := by
      rw [isPlayerInQueue] at h
      simp [h]
    have hjm : handleJoinMatchmaking st p sock =
        ({ waitingPlayers := aset st.waitingPlayers p.id p
           queue := sortByTime (st.queue ++ [p]) },
         [{ target := sock, toRoom := false, event := "matchmaking-joined" },
          { target := "lobby", toRoom := true, event := "queue-status-update" }]) := by
      simp [handleJoinMatchmaking, isPlayerInQueue, joinQueue, h']
    rw [hjm]
    refine ⟨alookup_aset_self _ _ _, rfl, sortByTime_sorted _, ?app⟩
    case app =>
      intro hs hall
      exact sortByTime_sorted_append st.queue p hs hall

/-- Closed witness for `c6_join_queue`: `ben` joining after `ann` is appended
and recorded; a second `ann` join is rejected with state unchanged. -/
theorem c6_join_queue_witness :
    (handleJoinMatchmaking (joinQueue mmEmpty pw1) pw1 "s1" =
      ((joinQueue mmEmpty pw1),
       [{ target := "s1", toRoom := false, event := "matchmaking-error",
          error := some "Already in queue" }])) ∧
    alookup (handleJoinMatchmaking (joinQueue mmEmpty pw1) pw2 "s2").1.waitingPlayers
      pw2.id = some pw2 ∧
    (handleJoinMatchmaking (joinQueue mmEmpty pw1) pw2 "s2").1.queue =
      (joinQueue mmEmpty pw1).queue ++ [pw2] :=
  ⟨(c6_join_queue (joinQueue mmEmpty pw1) pw1 "s1").1 (by decide),
   ((c6_join_queue (joinQueue mmEmpty pw1) pw2 "s2").2 (by decide)).1,
   ((c6_join_queue (joinQueue mmEmpty pw1) pw2 "s2").2 (by decide)).2.2.2
     (by decide) (by decide)⟩

/-- C7 as amended: along every operation sequence from the empty state, no
identity ever occurs twice in the queue (and the `waitingPlayers` keys match
the queue), and a pair returned by `findMatch` consists of two distinct
identities that were in the queue and are both removed by that very call —
so an identity can only appear in two matched pairs by rejoining the queue
between the matches. -/
theorem c7_queue_invariant :
    (∀ ops : List MMOp, mmInv (mmRun mmEmpty ops).1) ∧
    (∀ (st : MMState) (p1 p2 : WaitingPlayer), mmInv st →
      (findMatch st).2 = some (p1, p2) →
      p1.id ≠ p2.id ∧
      p1.id ∉ (findMatch st).1.queue.map WaitingPlayer.id ∧
      p2.id ∉ (findMatch st).1.queue.map WaitingPlayer.id ∧
      p1 ∈ st.queue ∧ p2 ∈ st.queue) := by
  constructor
  · intro ops
    exact mmRun_inv mmEmpty ops mmInv_mmEmpty
  · intro st p1 p2 hinv hfm
    obtain ⟨hnd, hmq, hqm⟩ := hinv
    cases hq : st.queue with
    | nil => simp [findMatch, hq] at hfm
    | cons a l =>
      cases l with
      | nil => simp [findMatch, hq] at hfm
      | cons b l2 =>
        have hab : a = p1 ∧ b = p2 := by simpa [findMatch, hq] using hfm
        rw [hab.1, hab.2] at hq
        rw [hq] at hnd
        simp only [List.map_cons] at hnd
        have h1 := List.nodup_cons.mp hnd
        have hne12 : p1.id ≠ p2.id := fun he => h1.1 (by rw [he]; exact List.mem_cons_self _ _)
        have hne21 : p2.id ≠ p1.id := fun he => hne12 he.symm
        have hq1mem : p1.id ∈ st.queue.map WaitingPlayer.id := by rw [hq]; simp
        have hq2mem : p2.id ∈ st.queue.map WaitingPlayer.id := by rw [hq]; simp
        obtain ⟨w1, hw1⟩ := Option.isSome_iff_exists.mp
          ((alookup_isSome_iff_mem_keys _ _).mpr (hqm p1.id hq1mem))
        obtain ⟨w2, hw2⟩ := Option.isSome_iff_exists.mp
          ((alookup_isSome_iff_mem_keys _ _).mpr (hqm p2.id hq2mem))
        have hstep1 : leaveQueue st p1.id =
            { waitingPlayers := aerase st.waitingPlayers p1.id
              queue := removeFromQueue (p1 :: p2 :: l2) p1.id } := by
          simp [leaveQueue, hw1, hq]
        have hw2' : alookup (aerase st.waitingPlayers p1.id) p2.id = some w2 := by
          rw [alookup_aerase_ne _ hne21]
          exact hw2
        have hstep2 : leaveQueue
            { waitingPlayers := aerase st.waitingPlayers p1.id
              queue := removeFromQueue (p1 :: p2 :: l2) p1.id } p2.id =
            { waitingPlayers := aerase (aerase st.waitingPlayers p1.id) p2.id
              queue := removeFromQueue (removeFromQueue (p1 :: p2 :: l2) p1.id) p2.id } := by
          simp [leaveQueue, hw2']
        have hfm1 : (findMatch st).1 =
            { waitingPlayers := aerase (aerase st.waitingPlayers p1.id) p2.id
              queue := removeFromQueue (removeFromQueue (p1 :: p2 :: l2) p1.id) p2.id } := by
          simp [findMatch, hq, hstep1, hstep2]
        refine ⟨hne12, ?n1, ?n2, ?m1, ?m2⟩
        case n1 =>
          rw [hfm1]
          intro hmem
          have h3 := (mem_ids_removeFromQueue _ p2.id p1.id).mp hmem
          have h4 := (mem_ids_removeFromQueue _ p1.id p1.id).mp h3.2
          exact h4.1 rfl
        case n2 =>
          rw [hfm1]
          intro hmem
          exact ((mem_ids_removeFromQueue _ p2.id p2.id).mp hmem).1 rfl
        case m1 =>
          rw [hab.1]
          exact List.mem_cons_self _ _
        case m2 =>
          rw [hab.2]
          exact List.mem_cons_of_mem _ (List.mem_cons_self _ _)

/-- Closed witness for `c7_queue_invariant`: the invariant after a concrete
operation sequence, and a concrete match whose players are removed. -/
theorem c7_queue_invariant_witness :
    mmInv (mmRun mmEmpty [MMOp.join pw1, MMOp.join pw2, MMOp.tryMatch]).1 ∧
    (pw1.id ≠ pw2.id ∧
     pw1.id ∉ (findMatch stThree).1.queue.map WaitingPlayer.id ∧
     pw2.id ∉ (findMatch stThree).1.queue.map WaitingPlayer.id ∧
     pw1 ∈ stThree.queue ∧ pw2 ∈ stThree.queue) :=
  ⟨c7_queue_invariant.1 [MMOp.join pw1, MMOp.join pw2, MMOp.tryMatch],
   c7_queue_invariant.2 stThree pw1 pw2 (by decide) (by decide)⟩

/-- First player of the rejoin scenario (joins, is matched, rejoins). -/
def pRejoin : WaitingPlayer :=
  { id := "pat", username := "Pat", rating := 900, socketId := "u1", joinedAt := 0 }

/-- Opponent in the first match of the rejoin scenario. -/
def qRejoin : WaitingPlayer :=
  { id := "quin", username := "Quin", rating := 900, socketId := "u2", joinedAt := 1 }

/-- The same identity as `pRejoin`, rejoining later. -/
def pRejoin2 : WaitingPlayer :=
  { id := "pat", username := "Pat", rating := 900, socketId := "u1", joinedAt := 2 }

/-- Opponent in the second match of the rejoin scenario. -/
def rRejoin : WaitingPlayer :=
  { id := "ray", username := "Ray", rating := 900, socketId := "u3", joinedAt := 3 }

/-- C7 counterexample: over the sequence join `pat`, join `quin`, `tryMatch`,
rejoin `pat`, join `ray`, `tryMatch`, the identity `pat` is returned as part
of two different matched pairs — the claim's "no player is ever returned as
part of two different matched pairs" does not hold for sequences that rejoin
a matched player. -/
theorem c7_rematched_after_rejoin :
    (mmRun mmEmpty [MMOp.join pRejoin, MMOp.join qRejoin, MMOp.tryMatch,
        MMOp.join pRejoin2, MMOp.join rRejoin, MMOp.tryMatch]).2 =
      [(pRejoin, qRejoin), (pRejoin2, rRejoin)] ∧
    pRejoin.id = pRejoin2.id ∧
    (pRejoin, qRejoin) ≠ (pRejoin2, rRejoin) := by
  decide

end ChessClone
